import Mathlib

/-!
# Verification of the BondModule atomic deployment + distribution scripts

Shallow embedding of the three near-duplicate implementations of the
deploy-and-distribute flow found in the repository:

* implementation A — the first viem script in `index.ts` (lines 1–612);
* implementation B — the second viem script in `index.ts` (lines 613–1178);
* implementation C — the ethers/hardhat script in `src/unnamed/part_001`.

Bytes are modelled as `List Nat` (each element a byte value `< 256`);
unsigned 256-bit integers are `Nat` (reduced mod `2^256` where the source's
fixed-width encoding makes overflow observable).  Keccak-256 is implemented
in full so that digests can be evaluated on concrete inputs.
-/

set_option maxRecDepth 1000000

namespace Bond

/-! ## Byte-string utilities -/

/-- Big-endian fixed-width byte encoding of a natural number: `beBytes w n`
is the `w`-byte big-endian representation of `n % 256^w`.  This is the byte
layout produced by `encodePacked` / `solidityPacked` for a `uintN` (with
`w = N/8`) and for an `address` (`w = 20`). -/
def beBytes : Nat → Nat → List Nat
  | 0, _ => []
  | w + 1, n => beBytes w (n / 256) ++ [n % 256]

/-- Read a big-endian byte string back into a natural number. -/
def fromBytes (l : List Nat) : Nat :=
  l.foldl (fun acc b => acc * 256 + b) 0

/-! ## Keccak-256

A complete executable implementation of Keccak-256 (the pre-NIST padding
variant used by Ethereum's `keccak256`), operating on a state of 25 lanes of
64 bits each, stored as a `List Nat` indexed by `x + 5 * y`. -/

/-- 64-bit mask. -/
def mask64 : Nat := 2 ^ 64 - 1

/-- Rotate a 64-bit lane left by `k` bits. -/
def rotl64 (v k : Nat) : Nat :=
  let k := k % 64
  ((v <<< k) ||| (v >>> (64 - k))) &&& mask64

/-- The 24 Keccak-f[1600] round constants. -/
def keccakRC : List Nat :=
  [0x0000000000000001, 0x0000000000008082, 0x800000000000808a, 0x8000000080008000,
   0x000000000000808b, 0x0000000080000001, 0x8000000080008081, 0x8000000000008009,
   0x000000000000008a, 0x0000000000000088, 0x0000000080008009, 0x000000008000000a,
   0x000000008000808b, 0x800000000000008b, 0x8000000000008089, 0x8000000000008003,
   0x8000000000008002, 0x8000000000000080, 0x000000000000800a, 0x800000008000000a,
   0x8000000080008081, 0x8000000000008080, 0x0000000080000001, 0x8000000080008008]

/-- Rotation offsets `r[x][y]`, stored at index `x + 5 * y`. -/
def rhoOffsets : List Nat :=
  [0x00, 0x01, 0x3e, 0x1c, 0x1b,
   0x24, 0x2c, 0x06, 0x37, 0x14,
   0x03, 0x0a, 0x2b, 0x19, 0x27,
   0x29, 0x2d, 0x0f, 0x15, 0x08,
   0x12, 0x02, 0x3d, 0x38, 0x0e]

/-- Lane `A[x, y]` of a Keccak state. -/
def lane (st : List Nat) (x y : Nat) : Nat :=
  st.getD (x % 5 + 5 * (y % 5)) 0

/-- Keccak θ step. -/
def theta (st : List Nat) : List Nat :=
  let c := fun x => lane st x 0 ^^^ lane st x 1 ^^^ lane st x 2 ^^^ lane st x 3 ^^^ lane st x 4
  let d := fun x => c ((x + 4) % 5) ^^^ rotl64 (c ((x + 1) % 5)) 1
  (List.range 25).map (fun i => st.getD i 0 ^^^ d (i % 5))

/-- Keccak ρ and π steps combined: the lane at position `(X, Y)` of the
result is `rot(A[(X + 3Y) % 5, X])` by the table offset. -/
def rhoPi (st : List Nat) : List Nat :=
  (List.range 25).map (fun i =>
    let xo := i % 5
    let yo := i / 5
    let xi := (xo + 3 * yo) % 5
    rotl64 (lane st xi xo) (rhoOffsets.getD (xi + 5 * (xo % 5)) 0))

/-- Keccak χ step. -/
def chi (st : List Nat) : List Nat :=
  (List.range 25).map (fun i =>
    let x := i % 5
    let y := i / 5
    lane st x y ^^^ ((lane st (x + 1) y ^^^ mask64) &&& lane st (x + 2) y))

/-- Keccak ι step: xor the round constant into lane 0. -/
def iotaStep (rc : Nat) (st : List Nat) : List Nat :=
  match st with
  | [] => []
  | a :: rest => (a ^^^ rc) :: rest

/-- One full Keccak round. -/
def keccakRound (st : List Nat) (rc : Nat) : List Nat :=
  iotaStep rc (chi (rhoPi (theta st)))

/-- The Keccak-f[1600] permutation: 24 rounds. -/
def keccakF (st : List Nat) : List Nat :=
  keccakRC.foldl keccakRound st

/-- Load 8 bytes little-endian into a 64-bit lane. -/
def loadLane (bytes : List Nat) : Nat :=
  bytes.foldr (fun b acc => b + 256 * acc) 0

/-- Store a 64-bit lane as 8 little-endian bytes. -/
def storeLane (v : Nat) : List Nat :=
  (List.range 8).map (fun j => v / 256 ^ j % 256)

/-- XOR a 136-byte rate block into the state and permute. -/
def absorbBlock (st block : List Nat) : List Nat :=
  let bl := (List.range 17).map (fun i => loadLane ((block.drop (8 * i)).take 8))
  keccakF ((List.range 25).map (fun i => st.getD i 0 ^^^ bl.getD i 0))

/-- Keccak multi-rate padding `pad10*1` for rate 136 bytes, with the 0x01
domain byte used by Ethereum's keccak256 (not the NIST SHA-3 0x06). -/
def keccakPad (msg : List Nat) : List Nat :=
  let padLen := 136 - msg.length % 136
  if padLen == 1 then msg ++ [0x81]
  else msg ++ [0x01] ++ List.replicate (padLen - 2) 0 ++ [0x80]

/-- Split a byte string into 136-byte blocks (fuel-based so that the kernel
can evaluate it). -/
def chunksAux : Nat → List Nat → List (List Nat)
  | 0, _ => []
  | _ + 1, [] => []
  | fuel + 1, l => l.take 136 :: chunksAux fuel (l.drop 136)

/-- Split a byte string into 136-byte blocks. -/
def chunks136 (l : List Nat) : List (List Nat) :=
  chunksAux (l.length / 136 + 1) l

/-- Keccak-256 of a byte string: pad, absorb every 136-byte block, and
squeeze the first 32 bytes of the final state. -/
def keccak256 (msg : List Nat) : List Nat :=
  let st := (chunks136 (keccakPad msg)).foldl absorbBlock (List.replicate 25 0)
  ((List.range 4).map (fun i => storeLane (st.getD i 0))).flatten

/-! ## Facts about the fixed-width byte encoding -/

theorem beBytes_length (k m : Nat) : (beBytes k m).length = k := by
  induction k generalizing m with
  | succ k ih => simp [beBytes, ih]
  | zero => rfl

theorem fromBytes_append_singleton (l : List Nat) (b : Nat) :
    fromBytes (l ++ [b]) = fromBytes l * 256 + b := by
  simp [fromBytes, List.foldl_append]

/-- The big-endian encoding round-trips: reading back `beBytes w n` yields
`n` reduced modulo `256 ^ w`. -/
theorem fromBytes_beBytes (w n : Nat) : fromBytes (beBytes w n) = n % 256 ^ w := by
  induction w generalizing n with
  | zero => simp [beBytes, fromBytes, Nat.mod_one]
  | succ w ih =>
    rw [beBytes, fromBytes_append_singleton, ih]
    have hdvd : (256:Nat) ∣ 256 * 256 ^ w := ⟨256 ^ w, rfl⟩
    calc n / 256 % 256 ^ w * 256 + n % 256
        = n % (256 * 256 ^ w) / 256 * 256 + n % (256 * 256 ^ w) % 256 := by
          rw [Nat.mod_mul_right_div_self, Nat.mod_mod_of_dvd _ hdvd]
      _ = n % (256 * 256 ^ w) := Nat.div_add_mod' _ 256
      _ = n % 256 ^ (w + 1) := by rw [pow_succ, Nat.mul_comm]

/-- Fixed-width big-endian encodings of in-range values are injective. -/
theorem beBytes_inj {w a b : Nat} (ha : a < 256 ^ w) (hb : b < 256 ^ w)
    (h : beBytes w a = beBytes w b) : a = b := by
  have hf := congrArg fromBytes h
  rwa [fromBytes_beBytes, fromBytes_beBytes, Nat.mod_eq_of_lt ha,
    Nat.mod_eq_of_lt hb] at hf

/-! ## Protocol constants

Translated from the constant blocks at the top of each script.  Addresses
are 160-bit naturals. -/

/-- The contract address book used by the scripts.  Field names follow the
`DEPLOYED_ADDRESSES` object of the source. -/
structure AddressBook where
  MockToken : Nat
  EscrowZyFAI : Nat
  EscrowGiza : Nat
  EscrowCod3x : Nat
  NexusAccountFactory : Nat
  BiconomyMetaFactory : Nat
  BondModule : Nat

/-- `DEPLOYED_ADDRESSES` of the two viem scripts in `index.ts` (both copies
use the same values). -/
def viemAddresses : AddressBook where
  MockToken := 0x0B1Cddc846C5b1aC1293F943aFd8F642418D6f48
  EscrowZyFAI := 0x87aadB3aC964d1E50Be5025f08f4AF876DA81d10
  EscrowGiza := 0x4ad7da42761456f701d44322D25165629F5d795B
  EscrowCod3x := 0xA15bD240D25721687A90e70C193a7d42e8C5FF6c
  NexusAccountFactory := 0x123221fd520687f78e556c0F594aaA7030e09F6C
  BiconomyMetaFactory := 0x74e32771e3dc456D18797df513A1181e166940C2
  BondModule := 0x29195B26D9C4253C7e956e8ac4556697F7718C6D

/-- `DEPLOYED_ADDRESSES` of the hardhat script in `src/unnamed/part_001`. -/
def hardhatAddresses : AddressBook where
  MockToken := 0x24063f25a4b37047e69bdd029efcba5f298700b7
  EscrowZyFAI := 0x4064db9a9bab77df20f223e13dac784bb43b4386
  EscrowGiza := 0x558eaafb72be735e5e6f5a4280e948a6109c26bc
  EscrowCod3x := 0x1ea3939bcc4c1fce86b14ba6dd893a4796c38f59
  NexusAccountFactory := 0x8eace774786a98dcb84f7322f43d2108973625e7
  BiconomyMetaFactory := 0x707c7d8332595014ff814125f10a356685b60a2a
  BondModule := 0xe0146a494c24775ab07e58107f6e96456ad62dca

def MULTICALL3 : Nat := 0xcA11bde05977b3631167028862bE2a173976CA11

def INITIAL_TOKEN_BALANCE : Nat := 10000000000

def ALLOWANCE_CAP : Nat := 10000000000

def ALLOCATION_ZYFAI : Nat := 3000

def ALLOCATION_GIZA : Nat := 3000

def ALLOCATION_COD3X : Nat := 4000

def TOTAL_PERCENTAGE : Nat := 10000

/-! ## ABI encoding and selectors

The scripts build calldata as `selector ++ abi-encoded arguments`, with the
selector the first 4 bytes of the keccak-256 hash of the function's
signature string. -/

/-- Right-pad a byte string with zeros to a multiple of 32 bytes. -/
def pad32r (l : List Nat) : List Nat :=
  l ++ List.replicate ((32 - l.length % 32) % 32) 0

/-- ABI tail encoding of a dynamic `bytes` value: length word, then the
bytes zero-padded to a word boundary. -/
def abiBytesEnc (b : List Nat) : List Nat :=
  beBytes 32 b.length ++ pad32r b

/-- UTF-8 bytes of the string approve(address,uint256). -/
def approveSigBytes : List Nat :=
  [97, 112, 112, 114, 111, 118, 101, 40, 97, 100, 100, 114,
   101, 115, 115, 44, 117, 105, 110, 116, 50, 53, 54, 41]

/-- UTF-8 bytes of the string deposit(uint256). -/
def depositSigBytes : List Nat :=
  [100, 101, 112, 111, 115, 105, 116, 40, 117, 105, 110, 116,
   50, 53, 54, 41]

/-- UTF-8 bytes of the string createAccount(bytes,bytes32). -/
def createAccountSigBytes : List Nat :=
  [99, 114, 101, 97, 116, 101, 65, 99, 99, 111, 117, 110,
   116, 40, 98, 121, 116, 101, 115, 44, 98, 121, 116, 101,
   115, 51, 50, 41]

/-- UTF-8 bytes of the string deployWithFactory(address,bytes). -/
def deployWithFactorySigBytes : List Nat :=
  [100, 101, 112, 108, 111, 121, 87, 105, 116, 104, 70, 97,
   99, 116, 111, 114, 121, 40, 97, 100, 100, 114, 101, 115,
   115, 44, 98, 121, 116, 101, 115, 41]

/-- UTF-8 bytes of the signature string of executeBatchWithAttestation. -/
def executeBatchSigBytes : List Nat :=
  [101, 120, 101, 99, 117, 116, 101, 66, 97, 116, 99, 104,
   87, 105, 116, 104, 65, 116, 116, 101, 115, 116, 97, 116,
   105, 111, 110, 40, 97, 100, 100, 114, 101, 115, 115, 44,
   98, 121, 116, 101, 115, 44, 97, 100, 100, 114, 101, 115,
   115, 44, 117, 105, 110, 116, 50, 53, 54, 44, 117, 105,
   110, 116, 50, 53, 54, 44, 98, 121, 116, 101, 115, 41]

/-- Function selector: first 4 bytes of the keccak-256 of the signature
string, as in the source's keccak256(toHex(sig)).slice(0, 10). -/
def selector (sigBytes : List Nat) : List Nat :=
  (keccak256 sigBytes).take 4

def approveSelector : List Nat := selector approveSigBytes

def depositSelector : List Nat := selector depositSigBytes

def createAccountSelector : List Nat := selector createAccountSigBytes

def deployWithFactorySelector : List Nat := selector deployWithFactorySigBytes

def executeBatchSelector : List Nat := selector executeBatchSigBytes

/-! ## The attestation digest (AttestationSigner) -/

/-- The pre-image hashed by all three scripts:
encodePacked(uint256 chainId, address account, address token,
uint256 allowedPercentageBps, uint256 nonce, bytes executionBatch) —
fixed-width fields concatenated in this exact order, then the raw batch
bytes, with no length prefixes. -/
def attestationPreimage (chainId account token capBps nonce : Nat)
    (batch : List Nat) : List Nat :=
  beBytes 32 chainId ++ beBytes 20 account ++ beBytes 20 token ++
    beBytes 32 capBps ++ beBytes 32 nonce ++ batch

/-- attestationHash — keccak-256 of the packed pre-image (index.ts lines
527–532 and 970–975, part_001 lines 245–248). -/
def attestationHash (chainId account token capBps nonce : Nat)
    (batch : List Nat) : List Nat :=
  keccak256 (attestationPreimage chainId account token capBps nonce batch)

/-- The 28 bytes of the string Ethereum-Signed-Message header for a 32-byte
message: 0x19 followed by Ethereum Signed Message:, a newline, and the
decimal length 32.  This is the literal written out in index.ts line 978
and part_001 line 251, and the header that viem's and ethers' personal-sign
hashing prepends to a 32-byte raw message. -/
def ethMessageHeader32 : List Nat :=
  [25, 69, 116, 104, 101, 114, 101, 117, 109, 32, 83, 105,
   103, 110, 101, 100, 32, 77, 101, 115, 115, 97, 103, 101,
   58, 10, 51, 50]

/-- Modelled library behaviour: the ECDSA digest produced by
walletClient.signMessage with a raw 32-byte message (viem hashMessage):
keccak-256 of the personal-message header followed by the raw bytes.  Every
call site in the repository passes a 32-byte value. -/
def personalSignDigest (raw : List Nat) : List Nat :=
  keccak256 (ethMessageHeader32 ++ raw)

/-- Implementation A (index.ts lines 527–537): signMessage over the raw
attestation hash, so the ECDSA digest has the header applied once. -/
def implA_signedDigest (chainId account token capBps nonce : Nat)
    (batch : List Nat) : List Nat :=
  personalSignDigest (attestationHash chainId account token capBps nonce batch)

/-- Implementation B (index.ts lines 975–984): the script hashes the header
in manually (ethSignedHash) and then passes that hash to signMessage as a
raw message, which applies the header again. -/
def implB_signedDigest (chainId account token capBps nonce : Nat)
    (batch : List Nat) : List Nat :=
  personalSignDigest
    (keccak256 (ethMessageHeader32 ++
      attestationHash chainId account token capBps nonce batch))

/-- Implementation C (part_001 lines 250–254): ethSignedHash is computed
manually and signed directly with signingKey.sign, which performs no
further hashing, so the header is applied once. -/
def implC_signedDigest (chainId account token capBps nonce : Nat)
    (batch : List Nat) : List Nat :=
  keccak256 (ethMessageHeader32 ++
    attestationHash chainId account token capBps nonce batch)



/-! ## Distribution amounts (BatchBuilder) -/

/-- amountZyFAI — (accountBalance * ALLOCATION_ZYFAI) / TOTAL_PERCENTAGE. -/
def amountZyFAI (accountBalance : Nat) : Nat :=
  accountBalance * ALLOCATION_ZYFAI / TOTAL_PERCENTAGE

/-- amountGiza — (accountBalance * ALLOCATION_GIZA) / TOTAL_PERCENTAGE. -/
def amountGiza (accountBalance : Nat) : Nat :=
  accountBalance * ALLOCATION_GIZA / TOTAL_PERCENTAGE

/-- amountCod3x — (accountBalance * ALLOCATION_COD3X) / TOTAL_PERCENTAGE. -/
def amountCod3x (accountBalance : Nat) : Nat :=
  accountBalance * ALLOCATION_COD3X / TOTAL_PERCENTAGE

/-- The per-entry amount formula the three scripts apply to each allocation
share: floor(balance * share / 10000). -/
def shareAmount (balance share : Nat) : Nat :=
  balance * share / TOTAL_PERCENTAGE

/-- The allocation plan hard-coded by the scripts: the three escrow vaults
with their basis-point shares 3000 / 3000 / 4000. -/
def ALLOCATION_PLAN (ab : AddressBook) : List (Nat × Nat) :=
  [(ab.EscrowZyFAI, ALLOCATION_ZYFAI),
   (ab.EscrowGiza, ALLOCATION_GIZA),
   (ab.EscrowCod3x, ALLOCATION_COD3X)]

/-- The spec's BatchBuilder amount computation for an arbitrary plan; each
entry uses exactly the source's per-entry formula `shareAmount`. -/
def planAmounts (balance : Nat) (plan : List (Nat × Nat)) : List Nat :=
  plan.map (fun e => shareAmount balance e.2)

/-! ## The execution batch -/

/-- One sub-call of the execution batch: (target, value, callData), as in
the `executions` arrays of the scripts. -/
structure Execution where
  target : Nat
  value : Nat
  callData : List Nat
deriving DecidableEq

/-- approve(spender, amount) calldata: selector then the two ABI words. -/
def approveCallData (spender amount : Nat) : List Nat :=
  approveSelector ++ beBytes 32 spender ++ beBytes 32 amount

/-- deposit(amount) calldata: selector then one ABI word. -/
def depositCallData (amount : Nat) : List Nat :=
  depositSelector ++ beBytes 32 amount

/-- The `executions` array (index.ts lines 474–505 and 901–956, part_001
lines 202–233): approve+deposit for ZyFAI, then Giza, then Cod3x. -/
def executions (ab : AddressBook) (accountBalance : Nat) : List Execution :=
  [⟨ab.MockToken, 0, approveCallData ab.EscrowZyFAI (amountZyFAI accountBalance)⟩,
   ⟨ab.EscrowZyFAI, 0, depositCallData (amountZyFAI accountBalance)⟩,
   ⟨ab.MockToken, 0, approveCallData ab.EscrowGiza (amountGiza accountBalance)⟩,
   ⟨ab.EscrowGiza, 0, depositCallData (amountGiza accountBalance)⟩,
   ⟨ab.MockToken, 0, approveCallData ab.EscrowCod3x (amountCod3x accountBalance)⟩,
   ⟨ab.EscrowCod3x, 0, depositCallData (amountCod3x accountBalance)⟩]

/-- ABI encoding of one (address, uint256, bytes) tuple: three head words
(the third is the fixed 0x60 offset of the dynamic bytes) and the bytes
tail. -/
def encodeExecution (e : Execution) : List Nat :=
  beBytes 32 e.target ++ beBytes 32 e.value ++ beBytes 32 96 ++
    abiBytesEnc e.callData

/-- ABI encoding of the `executions` array as the single parameter
tuple(address,uint256,bytes)[] — the `executionBatch` bytes the scripts
compute with encodeAbiParameters / AbiCoder. -/
def encodeExecutionBatch (es : List Execution) : List Nat :=
  let tails := es.map encodeExecution
  beBytes 32 32 ++ beBytes 32 es.length ++
    ((List.range es.length).map
      (fun i => beBytes 32 (32 * es.length + ((tails.take i).map List.length).sum))).flatten ++
    tails.flatten

/-! ## Multicall3 sub-calls and the atomic executor -/

/-- One Multicall3 aggregate3 sub-call. -/
structure Call3 where
  target : Nat
  allowFailure : Bool
  callData : List Nat
deriving DecidableEq

/-- ABI argument encoding for createAccount(bytes initData, bytes32 salt):
offset word for the bytes, the raw salt word, then the bytes tail. -/
def encodeCreateAccountArgs (initData : List Nat) (salt : Nat) : List Nat :=
  beBytes 32 64 ++ beBytes 32 salt ++ abiBytesEnc initData

/-- ABI argument encoding for a function taking (address, bytes), used for
deployWithFactory(factory, factoryData). -/
def encodeAddressBytesArgs (addr : Nat) (data : List Nat) : List Nat :=
  beBytes 32 addr ++ beBytes 32 64 ++ abiBytesEnc data

/-- ABI argument encoding for executeBatchWithAttestation(address nexusAccount,
bytes executionBatch, address token, uint256 allowedPercentageBps,
uint256 nonce, bytes attestationSignature): six head words with the two
dynamic offsets, then the two bytes tails. -/
def encodeExecuteBatchArgs (account : Nat) (batch : List Nat)
    (token capBps nonce : Nat) (sig : List Nat) : List Nat :=
  beBytes 32 account ++ beBytes 32 192 ++ beBytes 32 token ++
    beBytes 32 capBps ++ beBytes 32 nonce ++
    beBytes 32 (192 + (abiBytesEnc batch).length) ++
    abiBytesEnc batch ++ abiBytesEnc sig

/-- What deployAccountAndExecuteDistribution computes before submitting. -/
structure DistributionResult where
  executionBatch : List Nat
  attHash : List Nat
  sigBytes : List Nat
  calls : List Call3

/-- deployAccountAndExecuteDistribution (index.ts lines 434–605 and
865–1092, part_001 lines 174–311), up to the aggregate3 submission.
`mkDigest` maps the attestation hash to the final ECDSA digest (it differs
between the three scripts, see `implA_signedDigest` etc.); `ecdsaSign`
models signing that digest with the deployer key. -/
def deployAndDistribute (ab : AddressBook) (accountAddress : Nat)
    (initData : List Nat) (salt : Nat) (accountBalance chainId nonce : Nat)
    (mkDigest ecdsaSign : List Nat → List Nat) : DistributionResult :=
  let factoryData := createAccountSelector ++ encodeCreateAccountArgs initData salt
  let executionBatch := encodeExecutionBatch (executions ab accountBalance)
  let capBps := TOTAL_PERCENTAGE
  let attHash := attestationHash chainId accountAddress ab.MockToken capBps nonce executionBatch
  let sigBytes := ecdsaSign (mkDigest attHash)
  let calls : List Call3 :=
    [⟨ab.BiconomyMetaFactory, false,
      deployWithFactorySelector ++
        encodeAddressBytesArgs ab.NexusAccountFactory factoryData⟩,
     ⟨ab.BondModule, false,
      executeBatchSelector ++
        encodeExecuteBatchArgs accountAddress executionBatch ab.MockToken
          capBps nonce sigBytes⟩]
  ⟨executionBatch, attHash, sigBytes, calls⟩

/-! ## Run traces: mint polling and the main flows -/

/-- Application-level failures raised by the scripts. -/
inductive FlowError where
  | stateSync
  | txFailed
deriving DecidableEq

/-- Externally observable side-effecting steps of a run. -/
inductive Event where
  | mint (dest amount : Nat)
  | sleepMs (ms : Nat)
  | balanceRead
  | submitMulticall (target : Nat) (calls : List Call3)
  | ledgerWrite (account : Nat)
deriving DecidableEq

/-- The external world a single run interacts with.  `balanceReads i` is the
result of the i-th balanceOf query during the post-mint confirmation;
`accountBalance` is the balanceOf result read at the start of the
distribution step; `ecdsaSign` is signing with the deployer key. -/
structure Env where
  hasCode : Bool
  balanceReads : Nat → Nat
  accountBalance : Nat
  chainId : Nat
  nonce : Nat
  initData : List Nat
  salt : Nat
  accountAddress : Nat
  ecdsaSign : List Nat → List Nat

/-- The balance-confirmation loop of implementation A (index.ts lines
412–424): up to `fuel` = 10 balance reads starting at index `i`, stopping
at the first non-zero result, sleeping 2000 ms after each zero read.
Returns the trace and the final balance. -/
def pollEvents (reads : Nat → Nat) (i : Nat) : Nat → List Event × Nat
  | 0 => ([], 0)
  | fuel + 1 =>
    let b := reads i
    if 0 < b then ([Event.balanceRead], b)
    else
      let r := pollEvents reads (i + 1) fuel
      (Event.balanceRead :: Event.sleepMs 2000 :: r.1, r.2)

/-- mintTokensToAccount of implementation A (index.ts lines 394–432): mint,
wait, sleep 3000 ms, poll up to 10 times, and fail hard if the balance is
still zero. -/
def mintTokensToAccountA (env : Env) : List Event × Except FlowError Unit :=
  let p := pollEvents env.balanceReads 0 10
  ([Event.mint env.accountAddress INITIAL_TOKEN_BALANCE, Event.sleepMs 3000] ++ p.1,
   if p.2 = 0 then Except.error FlowError.stateSync else Except.ok ())

/-- mintTokensToAccount of implementation B (index.ts lines 834–863): mint,
wait, sleep 1000 ms, read the balance once, log it, and continue
regardless of its value. -/
def mintTokensToAccountB (env : Env) : List Event × Except FlowError Unit :=
  ([Event.mint env.accountAddress INITIAL_TOKEN_BALANCE, Event.sleepMs 1000,
    Event.balanceRead], Except.ok ())

/-- mintTokensToAccount of implementation C (part_001 lines 161–172): mint,
wait for the receipt, read the balance once, log it, continue regardless. -/
def mintTokensToAccountC (env : Env) : List Event × Except FlowError Unit :=
  ([Event.mint env.accountAddress INITIAL_TOKEN_BALANCE, Event.balanceRead],
   Except.ok ())

/-- main of implementation A (index.ts lines 228–273): check for existing
code and return if present; otherwise mint (aborting on its failure) and
submit the atomic Multicall3 transaction. -/
def mainA (ab : AddressBook) (env : Env) : List Event × Except FlowError Unit :=
  if env.hasCode then ([], Except.ok ())
  else
    let m := mintTokensToAccountA env
    match m.2 with
    | Except.error e => (m.1, Except.error e)
    | Except.ok _ =>
      let d := deployAndDistribute ab env.accountAddress env.initData env.salt
        env.accountBalance env.chainId env.nonce personalSignDigest env.ecdsaSign
      (m.1 ++ [Event.submitMulticall MULTICALL3 d.calls], Except.ok ())

/-- main of implementation B (index.ts lines 695–743): as A, but it writes
deployments.json both on the already-deployed early return and after a
successful run, and its mint step never fails. -/
def mainB (ab : AddressBook) (env : Env) : List Event × Except FlowError Unit :=
  if env.hasCode then ([Event.ledgerWrite env.accountAddress], Except.ok ())
  else
    let m := mintTokensToAccountB env
    let d := deployAndDistribute ab env.accountAddress env.initData env.salt
      env.accountBalance env.chainId env.nonce
      (fun h => personalSignDigest (keccak256 (ethMessageHeader32 ++ h)))
      env.ecdsaSign
    (m.1 ++ [Event.submitMulticall MULTICALL3 d.calls,
      Event.ledgerWrite env.accountAddress], Except.ok ())

/-- main of implementation C (part_001 lines 54–88): as B, with the ethers
signing convention. -/
def mainC (ab : AddressBook) (env : Env) : List Event × Except FlowError Unit :=
  if env.hasCode then ([Event.ledgerWrite env.accountAddress], Except.ok ())
  else
    let m := mintTokensToAccountC env
    let d := deployAndDistribute ab env.accountAddress env.initData env.salt
      env.accountBalance env.chainId env.nonce
      (fun h => keccak256 (ethMessageHeader32 ++ h)) env.ecdsaSign
    (m.1 ++ [Event.submitMulticall MULTICALL3 d.calls,
      Event.ledgerWrite env.accountAddress], Except.ok ())

/-! ## The deployments.json ledger (DeploymentLedger)

Model of updateDeploymentsJson (index.ts lines 1094–1170, part_001 lines
313–384).  The JSON document is modelled structurally; presentation-only
string fields of the written record (block-explorer links, free-text
transaction-hash and block-number placeholders, the deployment date, token
name and symbol) are elided, every address-valued and boolean field is
kept. -/

/-- Keys under networks.baseSepolia.modules.  The scripts only ever write
the bondModule key; other keys stand for entries written by other tools
sharing the document. -/
inductive ModuleKey where
  | bondModule
  | otherModule (id : Nat)
deriving DecidableEq

/-- The record written under modules.bondModule. -/
structure BondModuleRecord where
  address : Nat
  verified : Bool
  agentMode : Bool
  percentageBasedLimits : Bool
  teeAttestation : Bool
  replayProtection : Bool
  yieldProtocolIntegration : Bool
  atomicMulticall3Deployment : Bool
  demoAccountPreComputedAddress : Nat
  escrowZyfai : Nat
  escrowGiza : Nat
  escrowCod3x : Nat
  mockToken : Nat
  mockTokenDecimals : Nat
  k1Validator : Nat
  mockRegistry : Nat
  nexusBootstrap : Nat
  nexusAccountFactory : Nat
  biconomyMetaFactory : Nat
deriving DecidableEq

/-- networks.baseSepolia, possibly with its modules key missing. -/
structure BaseSepoliaEntry where
  modules : Option (List (ModuleKey × BondModuleRecord))
deriving DecidableEq

/-- networks, possibly with its baseSepolia key missing. -/
structure Networks where
  baseSepolia : Option BaseSepoliaEntry
deriving DecidableEq

/-- The whole deployments.json document, possibly with networks missing. -/
structure Deployments where
  networks : Option Networks
deriving DecidableEq

/-- Overwrite-or-append assignment on a keyed association list. -/
def setKey (m : List (ModuleKey × BondModuleRecord)) (k : ModuleKey)
    (v : BondModuleRecord) : List (ModuleKey × BondModuleRecord) :=
  match m with
  | [] => [(k, v)]
  | (k', v') :: rest =>
    if k' = k then (k, v) :: rest else (k', v') :: setKey rest k v

/-- The record the scripts write under modules.bondModule for the account
address `nexusAccountAddress`.  K1Validator, MockRegistry and NexusBootstrap
addresses are those of the viem address block; the hardhat copy writes its
own constants but is otherwise identical. -/
def mkBondModuleRecord (ab : AddressBook) (nexusAccountAddress : Nat) :
    BondModuleRecord where
  address := ab.BondModule
  verified := false
  agentMode := true
  percentageBasedLimits := true
  teeAttestation := true
  replayProtection := true
  yieldProtocolIntegration := true
  atomicMulticall3Deployment := true
  demoAccountPreComputedAddress := nexusAccountAddress
  escrowZyfai := ab.EscrowZyFAI
  escrowGiza := ab.EscrowGiza
  escrowCod3x := ab.EscrowCod3x
  mockToken := ab.MockToken
  mockTokenDecimals := 6
  k1Validator := 0xaCEeEa78b9E1ACc06F5B6Cc527a3FE71A722CedB
  mockRegistry := 0x6feaFAbB6ba2a46A62eBb8A39354C73A6e1c283e
  nexusBootstrap := 0x7B5DED478B61C7Cb54F980A4FFcbEf4CC03B65Ef
  nexusAccountFactory := ab.NexusAccountFactory
  biconomyMetaFactory := ab.BiconomyMetaFactory

/-- updateDeploymentsJson: read the document, create the networks,
baseSepolia and modules levels if missing, then assign modules.bondModule
to the record for this run and write the document back. -/
def updateDeploymentsJson (ab : AddressBook) (d : Deployments)
    (nexusAccountAddress : Nat) : Deployments :=
  let nets := d.networks.getD ⟨none⟩
  let bs := nets.baseSepolia.getD ⟨none⟩
  let mods := bs.modules.getD []
  ⟨some ⟨some ⟨some
    (setKey mods ModuleKey.bondModule (mkBondModuleRecord ab nexusAccountAddress))⟩⟩⟩

/-! ## Helper lemmas for the distribution arithmetic -/

theorem div_add_div_le (a b d : Nat) : a / d + b / d ≤ (a + b) / d := by
  rcases Nat.eq_zero_or_pos d with h | h
  · subst h; simp
  · rw [Nat.le_div_iff_mul_le h, Nat.add_mul]
    exact Nat.add_le_add (Nat.div_mul_le_self a d) (Nat.div_mul_le_self b d)

/-- Summing the per-share floors never exceeds the floor of the whole. -/
theorem sum_share_floors_le (B : Nat) (l : List Nat) :
    (l.map (fun s => B * s / 10000)).sum ≤ B * l.sum / 10000 := by
  induction l with
  | nil => simp
  | cons s t ih =>
    simp only [List.map_cons, List.sum_cons]
    calc B * s / 10000 + (t.map (fun s => B * s / 10000)).sum
        ≤ B * s / 10000 + B * t.sum / 10000 := Nat.add_le_add_left ih _
      _ ≤ (B * s + B * t.sum) / 10000 := div_add_div_le _ _ _
      _ = B * (s + t.sum) / 10000 := by rw [Nat.mul_add]

/-- Each floor loses at most 9999, so the floors cannot undershoot the
exact value by 10000 per entry. -/
theorem sum_share_floors_lower (B : Nat) (l : List Nat) :
    B * l.sum ≤ 10000 * (l.map (fun s => B * s / 10000)).sum + 9999 * l.length := by
  induction l with
  | nil => simp
  | cons s t ih =>
    simp only [List.map_cons, List.sum_cons, List.length_cons]
    have h1 := Nat.div_add_mod (B * s) 10000
    have h2 : B * s % 10000 < 10000 := Nat.mod_lt _ (by norm_num)
    rw [Nat.mul_add]
    omega

/-! ## Claim theorems: BatchBuilder arithmetic -/

/-- Claim C3: for every balance and every plan whose basis-point shares sum
to 10000, each computed amount is floor(B * share / 10000), the amounts sum
to at most B, the shortfall is strictly below the number of entries, and no
entry receives the remainder (each amount is exactly the floor). -/
theorem batch_amounts_floor_and_shortfall (B : Nat) (plan : List (Nat × Nat))
    (h : (plan.map Prod.snd).sum = TOTAL_PERCENTAGE) :
    planAmounts B plan = plan.map (fun e => B * e.2 / 10000) ∧
    (planAmounts B plan).sum ≤ B ∧
    B - (planAmounts B plan).sum < plan.length := by
  have hTP : TOTAL_PERCENTAGE = 10000 := rfl
  rw [hTP] at h
  have hplan : planAmounts B plan =
      (plan.map Prod.snd).map (fun s => B * s / 10000) := by
    simp only [planAmounts, shareAmount, TOTAL_PERCENTAGE, List.map_map]
    rfl
  refine ⟨rfl, ?_, ?_⟩
  · rw [hplan]
    calc ((plan.map Prod.snd).map (fun s => B * s / 10000)).sum
        ≤ B * (plan.map Prod.snd).sum / 10000 := sum_share_floors_le _ _
      _ = B := by rw [h]; exact Nat.mul_div_cancel B (by norm_num)
  · have hlow := sum_share_floors_lower B (plan.map Prod.snd)
    rw [h, List.length_map] at hlow
    have hne : plan ≠ [] := by
      rintro rfl
      simp at h
    have hlen : 0 < plan.length := List.length_pos.mpr hne
    rw [hplan]
    have hsum : (((plan.map Prod.snd).map (fun s => B * s / 10000)).sum) ≤ B := by
      calc ((plan.map Prod.snd).map (fun s => B * s / 10000)).sum
          ≤ B * (plan.map Prod.snd).sum / 10000 := sum_share_floors_le _ _
        _ = B := by rw [h]; exact Nat.mul_div_cancel B (by norm_num)
    omega

/-- Witness for C3 at a concrete balance and plan. -/
theorem batch_amounts_floor_and_shortfall_witness :
    (([((1:Nat), (6000:Nat)), (2, 4000)].map Prod.snd).sum = TOTAL_PERCENTAGE) ∧
    (planAmounts 10001 [((1:Nat), (6000:Nat)), (2, 4000)] =
        [((1:Nat), (6000:Nat)), (2, 4000)].map (fun e => 10001 * e.2 / 10000) ∧
      (planAmounts 10001 [((1:Nat), (6000:Nat)), (2, 4000)]).sum ≤ 10001 ∧
      10001 - (planAmounts 10001 [((1:Nat), (6000:Nat)), (2, 4000)]).sum <
        ([((1:Nat), (6000:Nat)), (2, 4000)] : List (Nat × Nat)).length) :=
  ⟨by decide, batch_amounts_floor_and_shortfall 10001 [(1, 6000), (2, 4000)] (by decide)⟩

/-- Claim C4: the execution batch contains, for every plan entry in plan
order, exactly one approve sub-call granting the entry's vault the entry's
computed amount immediately followed by one deposit sub-call to that vault
for the same amount, and nothing else (its length is twice the number of
entries). -/
theorem executions_approve_deposit_per_entry (ab : AddressBook) (balance : Nat) :
    executions ab balance =
      (ALLOCATION_PLAN ab).flatMap (fun e =>
        [⟨ab.MockToken, 0, approveCallData e.1 (shareAmount balance e.2)⟩,
         ⟨e.1, 0, depositCallData (shareAmount balance e.2)⟩]) ∧
    (executions ab balance).length = 2 * (ALLOCATION_PLAN ab).length := by
  constructor
  · rfl
  · rfl

/-- Claim C9: at the initial balance 10,000,000,000 with the hard-coded
30/30/40 plan, the amounts are 3e9, 3e9 and 4e9 and they sum to the balance
exactly. -/
theorem concrete_distribution_amounts :
    amountZyFAI INITIAL_TOKEN_BALANCE = 3000000000 ∧
    amountGiza INITIAL_TOKEN_BALANCE = 3000000000 ∧
    amountCod3x INITIAL_TOKEN_BALANCE = 4000000000 ∧
    amountZyFAI INITIAL_TOKEN_BALANCE + amountGiza INITIAL_TOKEN_BALANCE +
      amountCod3x INITIAL_TOKEN_BALANCE = INITIAL_TOKEN_BALANCE :=
  ⟨rfl, rfl, rfl, rfl⟩

/-! ## Claim theorems: the attestation digest -/

/-- Claim C1: the attestation digest hashes the concatenation, in this
exact order, of the 32-byte chain id, 20-byte account, 20-byte token,
32-byte cap and 32-byte nonce followed by the raw batch bytes; the digest
is a function of the inputs, and on in-range inputs the packed pre-image is
injective: two tuples give the same pre-image exactly when every field and
every batch byte agree. -/
theorem attestation_digest_packed_injective
    (c1 a1 t1 p1 n1 : Nat) (b1 : List Nat) (c2 a2 t2 p2 n2 : Nat) (b2 : List Nat)
    (hc1 : c1 < 2 ^ 256) (ha1 : a1 < 2 ^ 160) (ht1 : t1 < 2 ^ 160)
    (hp1 : p1 < 2 ^ 256) (hn1 : n1 < 2 ^ 256)
    (hc2 : c2 < 2 ^ 256) (ha2 : a2 < 2 ^ 160) (ht2 : t2 < 2 ^ 160)
    (hp2 : p2 < 2 ^ 256) (hn2 : n2 < 2 ^ 256) :
    attestationHash c1 a1 t1 p1 n1 b1 =
      keccak256 (beBytes 32 c1 ++ beBytes 20 a1 ++ beBytes 20 t1 ++
        beBytes 32 p1 ++ beBytes 32 n1 ++ b1) ∧
    (attestationPreimage c1 a1 t1 p1 n1 b1 = attestationPreimage c2 a2 t2 p2 n2 b2 ↔
      (c1 = c2 ∧ a1 = a2 ∧ t1 = t2 ∧ p1 = p2 ∧ n1 = n2 ∧ b1 = b2)) := by
  have h256 : (2:Nat) ^ 256 = 256 ^ 32 := by norm_num
  have h160 : (2:Nat) ^ 160 = 256 ^ 20 := by norm_num
  refine ⟨rfl, ?_, ?_⟩
  · intro h
    unfold attestationPreimage at h
    obtain ⟨h, e6⟩ := List.append_inj h (by simp [beBytes_length])
    obtain ⟨h, e5⟩ := List.append_inj h (by simp [beBytes_length])
    obtain ⟨h, e4⟩ := List.append_inj h (by simp [beBytes_length])
    obtain ⟨h, e3⟩ := List.append_inj h (by simp [beBytes_length])
    obtain ⟨e1, e2⟩ := List.append_inj h (by simp [beBytes_length])
    exact ⟨beBytes_inj (h256 ▸ hc1) (h256 ▸ hc2) e1,
      beBytes_inj (h160 ▸ ha1) (h160 ▸ ha2) e2,
      beBytes_inj (h160 ▸ ht1) (h160 ▸ ht2) e3,
      beBytes_inj (h256 ▸ hp1) (h256 ▸ hp2) e4,
      beBytes_inj (h256 ▸ hn1) (h256 ▸ hn2) e5, e6⟩
  · rintro ⟨rfl, rfl, rfl, rfl, rfl, rfl⟩
    rfl

/-- Witness for C1 at two concrete in-range input tuples. -/
theorem attestation_digest_packed_injective_witness :
    attestationHash 84532 3 5 10000 1 [7] =
      keccak256 (beBytes 32 84532 ++ beBytes 20 3 ++ beBytes 20 5 ++
        beBytes 32 10000 ++ beBytes 32 1 ++ [7]) ∧
    (attestationPreimage 84532 3 5 10000 1 [7] = attestationPreimage 84532 3 5 10000 2 [9] ↔
      ((84532:Nat) = 84532 ∧ (3:Nat) = 3 ∧ (5:Nat) = 5 ∧ (10000:Nat) = 10000 ∧
        (1:Nat) = 2 ∧ ([7] : List Nat) = [9])) :=
  attestation_digest_packed_injective 84532 3 5 10000 1 [7] 84532 3 5 10000 2 [9]
    (by norm_num) (by norm_num) (by norm_num) (by norm_num) (by norm_num)
    (by norm_num) (by norm_num) (by norm_num) (by norm_num) (by norm_num)

/-! ## Claim theorems: balance-confirmation polling -/

/-- Recognizer for balance-read events, used to count reads in a trace. -/
def isBalanceRead : Event → Bool
  | Event.balanceRead => true
  | _ => false

/-- The poll returns zero exactly when every one of the `fuel` reads it may
perform is zero. -/
theorem pollEvents_zero_iff (reads : Nat → Nat) (i fuel : Nat) :
    (pollEvents reads i fuel).2 = 0 ↔ ∀ j, j < fuel → reads (i + j) = 0 := by
  induction fuel generalizing i with
  | zero => simp [pollEvents]
  | succ fuel ih =>
    by_cases hb : 0 < reads i
    · rw [pollEvents]
      simp only [hb, if_true]
      constructor
      · intro h0
        exact absurd h0 (Nat.pos_iff_ne_zero.mp hb)
      · intro hall
        exact absurd (by simpa using hall 0 (Nat.succ_pos fuel)) (Nat.pos_iff_ne_zero.mp hb)
    · have hz : reads i = 0 := Nat.eq_zero_of_not_pos hb
      rw [pollEvents]
      simp only [hb, if_false]
      rw [ih]
      constructor
      · intro hall j hj
        match j, hj with
        | 0, _ => simpa using hz
        | k + 1, hk =>
          have hlt : k < fuel := Nat.lt_of_succ_lt_succ hk
          have := hall k hlt
          rwa [show i + 1 + k = i + (k + 1) by omega] at this
      · intro hall j hj
        have := hall (j + 1) (Nat.succ_lt_succ hj)
        rwa [show i + (j + 1) = i + 1 + j by omega] at this

/-- Every sleep in the polling loop uses the fixed 2000 ms backoff. -/
theorem pollEvents_sleep_fixed (reads : Nat → Nat) (i fuel ms : Nat)
    (h : Event.sleepMs ms ∈ (pollEvents reads i fuel).1) : ms = 2000 := by
  induction fuel generalizing i with
  | zero => simp [pollEvents] at h
  | succ fuel ih =>
    rw [pollEvents] at h
    by_cases hb : 0 < reads i
    · simp [hb] at h
    · simp only [hb, if_false, List.mem_cons] at h
      rcases h with h | h | h
      · exact absurd h (by simp)
      · exact (Event.sleepMs.injEq ms 2000).mp h
      · exact ih _ h

/-- The polling loop performs at most `fuel` balance reads. -/
theorem pollEvents_reads_le (reads : Nat → Nat) (i fuel : Nat) :
    ((pollEvents reads i fuel).1.countP isBalanceRead) ≤ fuel := by
  induction fuel generalizing i with
  | zero => simp [pollEvents]
  | succ fuel ih =>
    rw [pollEvents]
    by_cases hb : 0 < reads i
    · simp [hb, List.countP_cons, isBalanceRead]
    · have h2 := ih (i + 1)
      simp only [hb, if_false]
      simp [List.countP_cons, isBalanceRead]
      omega

/-- Claim C7 (amended): only implementation A confirms the balance by
polling — up to 10 reads with a fixed 2000 ms backoff, failing hard with a
state-sync error exactly when all 10 reads return zero; implementations B
and C read the balance exactly once after minting and never raise an error
on a zero balance. -/
theorem mint_polling_per_implementation (env : Env) :
    ((mintTokensToAccountA env).2 = Except.error FlowError.stateSync ↔
      ∀ j, j < 10 → env.balanceReads j = 0) ∧
    (∀ ms, Event.sleepMs ms ∈ (pollEvents env.balanceReads 0 10).1 → ms = 2000) ∧
    ((pollEvents env.balanceReads 0 10).1.countP isBalanceRead ≤ 10) ∧
    (mintTokensToAccountB env).2 = Except.ok () ∧
    ((mintTokensToAccountB env).1.countP isBalanceRead = 1) ∧
    (mintTokensToAccountC env).2 = Except.ok () ∧
    ((mintTokensToAccountC env).1.countP isBalanceRead = 1) := by
  refine ⟨?_, fun ms h => pollEvents_sleep_fixed _ _ _ _ h,
    pollEvents_reads_le _ _ _, rfl, ?_, rfl, ?_⟩
  · unfold mintTokensToAccountA
    by_cases hz : (pollEvents env.balanceReads 0 10).2 = 0
    · simp only [hz, if_true]
      have hiff := pollEvents_zero_iff env.balanceReads 0 10
      simp only [Nat.zero_add] at hiff
      simpa using hiff.mp hz
    · simp only [hz, if_false]
      have hiff := pollEvents_zero_iff env.balanceReads 0 10
      simp only [Nat.zero_add] at hiff
      constructor
      · intro h
        exact absurd h (by simp)
      · intro hall
        exact absurd (hiff.mpr (by simpa using hall)) hz
  · simp [mintTokensToAccountB, List.countP_cons, isBalanceRead]
  · simp [mintTokensToAccountC, List.countP_cons, isBalanceRead]

/-- A run in which every balance read returns zero. -/
def envAllZero : Env where
  hasCode := false
  balanceReads := fun _ => 0
  accountBalance := 0
  chainId := 84532
  nonce := 1
  initData := []
  salt := 0
  accountAddress := 1
  ecdsaSign := fun _ => []

/-- Counterexample to C7 as stated: with the balance stuck at zero after
minting, implementations B and C perform exactly one balance read and
finish without raising any error, while only implementation A raises the
state-sync failure. -/
theorem mintB_mintC_no_retry_no_failure :
    (mintTokensToAccountB envAllZero).2 = Except.ok () ∧
    ((mintTokensToAccountB envAllZero).1.countP isBalanceRead = 1) ∧
    (mintTokensToAccountC envAllZero).2 = Except.ok () ∧
    ((mintTokensToAccountC envAllZero).1.countP isBalanceRead = 1) ∧
    (mintTokensToAccountA envAllZero).2 = Except.error FlowError.stateSync := by
  exact ⟨rfl, rfl, rfl, rfl, rfl⟩

/-! ## Claim theorems: the atomic executor -/

/-- Claim C5: when the account has no deployed code (and the mint
confirmation succeeded), the run submits exactly one Multicall3 aggregate3
transaction with exactly two sub-calls, both with allowFailure = false: the
factory deployment built from the initialization payload and salt, then the
executeBatchWithAttestation invocation with account, batch, token, cap,
nonce and signature. -/
theorem atomic_two_subcalls_when_undeployed (ab : AddressBook) (env : Env)
    (hcode : env.hasCode = false)
    (hbal : (pollEvents env.balanceReads 0 10).2 ≠ 0) :
    mainA ab env =
      ((mintTokensToAccountA env).1 ++
        [Event.submitMulticall MULTICALL3
          [⟨ab.BiconomyMetaFactory, false,
            deployWithFactorySelector ++
              encodeAddressBytesArgs ab.NexusAccountFactory
                (createAccountSelector ++ encodeCreateAccountArgs env.initData env.salt)⟩,
           ⟨ab.BondModule, false,
            executeBatchSelector ++
              encodeExecuteBatchArgs env.accountAddress
                (encodeExecutionBatch (executions ab env.accountBalance))
                ab.MockToken TOTAL_PERCENTAGE env.nonce
                (env.ecdsaSign (implA_signedDigest env.chainId env.accountAddress
                  ab.MockToken TOTAL_PERCENTAGE env.nonce
                  (encodeExecutionBatch (executions ab env.accountBalance))))⟩]],
       Except.ok ()) := by
  unfold mainA mintTokensToAccountA
  rw [hcode]
  simp only [Bool.false_eq_true, if_false, if_neg hbal]
  rfl

/-- A run against an account with no code and an immediately visible
balance. -/
def envReady : Env where
  hasCode := false
  balanceReads := fun _ => 5
  accountBalance := INITIAL_TOKEN_BALANCE
  chainId := 84532
  nonce := 1
  initData := []
  salt := 0
  accountAddress := 2
  ecdsaSign := fun _ => []

/-- Witness for C5 at a concrete environment. -/
theorem atomic_two_subcalls_when_undeployed_witness :
    (mainA viemAddresses envReady).2 = Except.ok () := by
  rw [atomic_two_subcalls_when_undeployed viemAddresses envReady rfl (by decide)]

/-- Claim C6: if the account already has deployed code at the start of the
run, every implementation short-circuits without error: the trace holds no
mint, no token transfer and no deployment submission — implementation A
returns immediately, implementations B and C only record the account's
deployment entry in the ledger before returning. -/
theorem already_deployed_short_circuits (ab : AddressBook) (env : Env)
    (hcode : env.hasCode = true) :
    mainA ab env = ([], Except.ok ()) ∧
    mainB ab env = ([Event.ledgerWrite env.accountAddress], Except.ok ()) ∧
    mainC ab env = ([Event.ledgerWrite env.accountAddress], Except.ok ()) := by
  unfold mainA mainB mainC
  rw [hcode]
  simp

/-- A run against an account that already has deployed code. -/
def envDeployed : Env where
  hasCode := true
  balanceReads := fun _ => 0
  accountBalance := 0
  chainId := 84532
  nonce := 1
  initData := []
  salt := 0
  accountAddress := 3
  ecdsaSign := fun _ => []

/-- Witness for C6 at a concrete environment. -/
theorem already_deployed_short_circuits_witness :
    mainA viemAddresses envDeployed = ([], Except.ok ()) ∧
    mainB viemAddresses envDeployed = ([Event.ledgerWrite envDeployed.accountAddress], Except.ok ()) ∧
    mainC viemAddresses envDeployed = ([Event.ledgerWrite envDeployed.accountAddress], Except.ok ()) :=
  already_deployed_short_circuits viemAddresses envDeployed rfl

/-- Claim C10: the very same batch bytes, token, cap and nonce that are
hashed into the attestation digest are passed, byte for byte and value for
value, to the executeBatchWithAttestation sub-call of the same run, and the
cap (10000 bps) equals the sum of the plan's basis-point shares. -/
theorem attestation_binds_executed_call (ab : AddressBook) (acct : Nat)
    (initData : List Nat) (salt bal chainId nonce : Nat)
    (mkDigest ecdsaSign : List Nat → List Nat) :
    ∃ batch : List Nat,
      batch = encodeExecutionBatch (executions ab bal) ∧
      (deployAndDistribute ab acct initData salt bal chainId nonce mkDigest
        ecdsaSign).executionBatch = batch ∧
      (deployAndDistribute ab acct initData salt bal chainId nonce mkDigest
        ecdsaSign).attHash =
        keccak256 (attestationPreimage chainId acct ab.MockToken
          TOTAL_PERCENTAGE nonce batch) ∧
      (deployAndDistribute ab acct initData salt bal chainId nonce mkDigest
        ecdsaSign).calls.getD 1 ⟨0, true, []⟩ =
        ⟨ab.BondModule, false,
         executeBatchSelector ++
           encodeExecuteBatchArgs acct batch ab.MockToken TOTAL_PERCENTAGE nonce
             ((deployAndDistribute ab acct initData salt bal chainId nonce
               mkDigest ecdsaSign).sigBytes)⟩ ∧
      TOTAL_PERCENTAGE = ((ALLOCATION_PLAN ab).map Prod.snd).sum := by
  refine ⟨encodeExecutionBatch (executions ab bal), rfl, ?_, ?_, ?_, ?_⟩
  · unfold deployAndDistribute
    rfl
  · unfold deployAndDistribute
    rfl
  · unfold deployAndDistribute
    rfl
  · simp [ALLOCATION_PLAN, ALLOCATION_ZYFAI, ALLOCATION_GIZA, ALLOCATION_COD3X,
      TOTAL_PERCENTAGE]

/-! ## Claim theorems: the deployments ledger -/

/-- Lookup on the keyed module store. -/
def getKey (m : List (ModuleKey × BondModuleRecord)) (k : ModuleKey) :
    Option BondModuleRecord :=
  match m with
  | [] => none
  | (k', v) :: rest => if k' = k then some v else getKey rest k

/-- The modules map of a deployments document, empty when any level of the
document is missing. -/
def modulesOf (d : Deployments) : List (ModuleKey × BondModuleRecord) :=
  ((d.networks.getD ⟨none⟩).baseSepolia.getD ⟨none⟩).modules.getD []

theorem getKey_setKey_same (m : List (ModuleKey × BondModuleRecord))
    (k : ModuleKey) (v : BondModuleRecord) : getKey (setKey m k v) k = some v := by
  induction m with
  | nil => simp [setKey, getKey]
  | cons p rest ih =>
    by_cases h : p.1 = k
    · simp [setKey, getKey, h]
    · simp [setKey, getKey, h, ih]

theorem getKey_setKey_other (m : List (ModuleKey × BondModuleRecord))
    (k k' : ModuleKey) (v : BondModuleRecord) (hne : k' ≠ k) :
    getKey (setKey m k v) k' = getKey m k' := by
  have h1 : ¬ k = k' := fun hh => hne hh.symm
  induction m with
  | nil => simp [setKey, getKey, h1]
  | cons p rest ih =>
    by_cases h : p.1 = k
    · subst h
      simp [setKey, getKey, h1]
    · simp only [setKey, if_neg h, getKey]
      by_cases h2 : p.1 = k'
      · simp [h2]
      · simp [h2, ih]

theorem setKey_setKey (m : List (ModuleKey × BondModuleRecord))
    (k : ModuleKey) (v v' : BondModuleRecord) :
    setKey (setKey m k v) k v' = setKey m k v' := by
  induction m with
  | nil => simp [setKey]
  | cons p rest ih =>
    by_cases h : p.1 = k
    · simp [setKey, h]
    · simp [setKey, h, ih]

/-- Claim C8 (amended): updateDeploymentsJson is a read-merge-write against
the keyed store, but its key is the fixed modules.bondModule path, not the
account address: after an upsert the bondModule key holds the record for
the given account, every other module key is preserved, and a second upsert
for any other account overwrites the first entirely (last-writer-wins
across accounts, not per account). -/
theorem ledger_upsert_fixed_key (ab : AddressBook) (d : Deployments)
    (acct1 acct2 : Nat) :
    getKey (modulesOf (updateDeploymentsJson ab d acct1)) ModuleKey.bondModule =
      some (mkBondModuleRecord ab acct1) ∧
    (∀ k, k ≠ ModuleKey.bondModule →
      getKey (modulesOf (updateDeploymentsJson ab d acct1)) k =
        getKey (modulesOf d) k) ∧
    updateDeploymentsJson ab (updateDeploymentsJson ab d acct1) acct2 =
      updateDeploymentsJson ab d acct2 := by
  refine ⟨?_, ?_, ?_⟩
  · exact getKey_setKey_same _ _ _
  · intro k hk
    exact getKey_setKey_other _ _ _ _ hk
  · show (⟨some ⟨some ⟨some (setKey (modulesOf (updateDeploymentsJson ab d acct1))
      ModuleKey.bondModule (mkBondModuleRecord ab acct2))⟩⟩⟩ : Deployments) = _
    have : modulesOf (updateDeploymentsJson ab d acct1) =
        setKey (modulesOf d) ModuleKey.bondModule (mkBondModuleRecord ab acct1) := rfl
    rw [this, setKey_setKey]
    rfl

/-- Witness for C8 (amended) at a concrete document and accounts. -/
theorem ledger_upsert_fixed_key_witness :
    getKey (modulesOf (updateDeploymentsJson viemAddresses ⟨none⟩ 1))
      ModuleKey.bondModule = some (mkBondModuleRecord viemAddresses 1) :=
  (ledger_upsert_fixed_key viemAddresses ⟨none⟩ 1 2).1

/-- Counterexample to C8 as stated: upserting account 1 and then account 2
leaves a document identical to one that never saw account 1 — the two
upserts wrote the same key (modules.bondModule), and the second overwrote
the first's record, which named a different account. -/
theorem ledger_upsert_overwrites_across_accounts :
    updateDeploymentsJson viemAddresses
        (updateDeploymentsJson viemAddresses ⟨none⟩ 1) 2 =
      updateDeploymentsJson viemAddresses ⟨none⟩ 2 ∧
    getKey (modulesOf (updateDeploymentsJson viemAddresses
        (updateDeploymentsJson viemAddresses ⟨none⟩ 1) 2)) ModuleKey.bondModule =
      some (mkBondModuleRecord viemAddresses 2) ∧
    mkBondModuleRecord viemAddresses 2 ≠ mkBondModuleRecord viemAddresses 1 := by
  refine ⟨rfl, rfl, ?_⟩
  intro h
  exact absurd (congrArg BondModuleRecord.demoAccountPreComputedAddress h) (by decide)

/-! ## Claim theorems: the signed message -/

/-- Claim C2, evaluated at a concrete input: implementations A and C sign
the same ECDSA digest — the attestation hash wrapped in the personal-message
header exactly once — but implementation B wraps its manually prefixed hash
in the header a second time when it hands it to signMessage as a raw
message, so its digest (and hence its signature) differs from the other
two and cannot verify against the attestation digest. -/
theorem implB_digest_diverges :
    implA_signedDigest 84532 1 2 10000 1 [] = implC_signedDigest 84532 1 2 10000 1 [] ∧
    implB_signedDigest 84532 1 2 10000 1 [] ≠ implA_signedDigest 84532 1 2 10000 1 [] := by
  refine ⟨rfl, ?_⟩
  decide

end Bond
